import Mathlib

/-!
Verification of the normalization engine of the transaction-cleaning
repository (src/src/normalizer.py) against its specification.

The Python module is shallowly embedded below.  Conventions:

* Python values that may be non-strings are modelled by `PyInput`:
  `PyInput.str s` is a Python `str`, `PyInput.nonString` stands for any
  value that is not a string (`None`, numbers, lists, ...).  The
  normalizers guard on `isinstance(x, str)` and treat every non-string
  alike, so one constructor suffices.
* Python exceptions are modelled with `Except PyExc`; a `try/except`
  block of the source becomes an explicit `match` that converts the
  caught exception kinds to the in-band result and re-raises the rest.
* `decimal.Decimal` values produced by the amount normalizer are exact
  decimals; after quantization to two fraction digits they are integers
  of cents, so the embedded amount normalizer returns `Option ℤ`
  (the number of cents).  Quantization uses round-half-even, the
  default rounding of Python's decimal context, and raises
  `InvalidOperation` when the quantized coefficient would exceed the
  default 28-digit context precision.
* The external fuzzy scorer `rapidfuzz.fuzz.partial_ratio` is a float
  in [0, 100]; it is abstracted as a `score : String → String → ℚ`
  parameter of the merchant normalizer, so theorems about the matching
  loop hold for every scorer, the real one included.
* The external `dateutil.parser.parse` call (with `dayfirst=False`) is
  modelled on the family of inputs the claims range over: strings made
  of three numeric tokens separated by `-` or by `/`.  The model follows
  dateutil's `_ymd.resolve_ymd` logic (year token detection by length,
  month-first with day-first fallback) and `datetime`'s calendar
  validation, as described in the specification's §4.1.  Inputs outside
  this family are modelled as parse failures.
-/

/-- A Python value passed to a normalizer: either a `str` or any
non-string value (the normalizers treat all non-strings alike). -/
inductive PyInput where
  | str (s : String)
  | nonString
deriving DecidableEq

/-- Exceptions that the embedded code can raise. -/
inductive PyExc where
  | valueError
  | overflowError
  | typeError
  | invalidOperation
deriving DecidableEq

/-- Whitespace characters stripped by Python's `str.strip` and matched
by the regex class `\s` (ASCII fragment, which is all the code relies on). -/
def isPySpace (c : Char) : Bool :=
  c = ' ' ∨ c = '\t' ∨ c = '\n' ∨ c = '\x0d' ∨ c = '\x0b' ∨ c = '\x0c'

/-- Python `str.strip()` on a list of characters. -/
def pyStripList (l : List Char) : List Char :=
  ((l.dropWhile isPySpace).reverse.dropWhile isPySpace).reverse

/-- Value of a decimal digit character. -/
def charToDigit (c : Char) : ℕ := c.toNat - 48

/-- Reads a run of decimal digit characters as a natural number
(most significant digit first). -/
def digitsToNat (l : List Char) : ℕ :=
  l.foldl (fun a c => 10 * a + charToDigit c) 0

/-- The decimal digit character for a digit value below ten. -/
def digitChar (d : ℕ) : Char :=
  match d with
  | 0 => '0' | 1 => '1' | 2 => '2' | 3 => '3' | 4 => '4'
  | 5 => '5' | 6 => '6' | 7 => '7' | 8 => '8' | 9 => '9'
  | _ => '*'

/-- Little-endian decimal digit characters of `n`, with explicit fuel
(structural recursion so that the kernel can evaluate it). -/
def renderNatAux : ℕ → ℕ → List Char
  | 0, _ => []
  | _ + 1, 0 => []
  | fuel + 1, n + 1 => digitChar ((n + 1) % 10) :: renderNatAux fuel ((n + 1) / 10)

/-- Decimal digit characters of `n`, most significant first
(empty for `n = 0`, like `Nat.digits`). -/
def renderNat (n : ℕ) : List Char := (renderNatAux n n).reverse

/-- Zero-pads a digit string on the left to width `w`. -/
def padLeft (w : ℕ) (l : List Char) : List Char :=
  List.replicate (w - l.length) '0' ++ l

/-- A natural number printed as (at least) two digits, zero-padded:
the `%m` / `%d` fields of `strftime`. -/
def pad2 (n : ℕ) : List Char := padLeft 2 (renderNat n)

/-- A natural number printed as (at least) four digits, zero-padded:
the `%Y` field of `strftime` for the 4-digit years the code accepts. -/
def pad4 (n : ℕ) : List Char := padLeft 4 (renderNat n)

/-- Splits a character list at every occurrence of `sep`
(the separator is dropped; `n` separators yield `n + 1` parts). -/
def splitOnChar (sep : Char) (l : List Char) : List (List Char) :=
  l.foldr
    (fun c acc =>
      if c = sep then [] :: acc
      else
        match acc with
        | [] => [[c]]
        | a :: as => (c :: a) :: as)
    [[]]

/-- Gregorian leap-year test, as implemented by Python's `datetime`. -/
def isLeap (y : ℕ) : Bool := (y % 4 = 0 ∧ y % 100 ≠ 0) ∨ y % 400 = 0

/-- Number of days of month `m` of year `y` (for `1 ≤ m ≤ 12`). -/
def daysInMonth (y m : ℕ) : ℕ :=
  if m = 2 then (if isLeap y then 29 else 28)
  else if m = 4 ∨ m = 6 ∨ m = 9 ∨ m = 11 then 30
  else 31

/-- Validity of a (year, month, day) triple for Python's
`datetime.datetime` constructor: `MINYEAR = 1`, `MAXYEAR = 9999`,
month in range, day valid for the month and year. -/
def validYMD (y m d : ℕ) : Prop :=
  1 ≤ y ∧ y ≤ 9999 ∧ 1 ≤ m ∧ m ≤ 12 ∧ 1 ≤ d ∧ d ≤ daysInMonth y m

instance (y m d : ℕ) : Decidable (validYMD y m d) := by
  unfold validYMD; infer_instance

/-- Modelled from the spec: the two-digit-year completion of
`dateutil.parser.parserinfo.convertyear` (not part of this repository).
A year below 100 with no century given is moved into the century of
`cy` (the current year), then shifted by 100 if it lands 50 or more
years away from `cy`. -/
def convertYear (cy : ℕ) (centurySpecified : Bool) (y : ℕ) : ℕ :=
  if y < 100 ∧ centurySpecified = false then
    let y1 : ℤ := (y : ℤ) + ((cy : ℤ) / 100) * 100
    let y2 : ℤ :=
      if 50 ≤ (y1 - (cy : ℤ)).natAbs then
        (if y1 < (cy : ℤ) then y1 + 100 else y1 - 100)
      else y1
    y2.toNat
  else y

/-- Modelled from the spec: `dateutil`'s `_ymd.resolve_ymd` on three
numeric tokens with `yearfirst=False, dayfirst=False` (the source calls
`date_parser.parse(date_string, dayfirst=False)`), followed by the
`datetime` calendar validation.  A token of more than two digits is
labelled as the year (`ystridx` is the last such index); otherwise the
first token is the month unless it exceeds 12, in which case the
reading falls back to day-first, per §4.1 of the specification. -/
def resolveAndValidate (cy : ℕ) (t0 t1 t2 : List Char) : Option (ℕ × ℕ × ℕ) :=
  let v0 := digitsToNat t0
  let v1 := digitsToNat t1
  let v2 := digitsToNat t2
  let ystridx : Option ℕ :=
    if 2 < t2.length then some 2
    else if 2 < t1.length then some 1
    else if 2 < t0.length then some 0
    else none
  let century : Bool := 2 < t0.length ∨ 2 < t1.length ∨ 2 < t2.length
  let ymd : ℕ × ℕ × ℕ :=
    if 31 < v0 ∨ ystridx = some 0 then (v0, v1, v2)
    else if 12 < v0 then (v2, v1, v0)
    else (v2, v0, v1)
  let y := convertYear cy century ymd.1
  let m := ymd.2.1
  let d := ymd.2.2
  if validYMD y m d then some (y, m, d) else none

/-- Checks that a token list is a plausible numeric date token:
non-empty and all decimal digits. -/
def goodToken (t : List Char) : Prop := t ≠ [] ∧ (∀ c ∈ t, c.isDigit = true)

instance (t : List Char) : Decidable (goodToken t) := by
  unfold goodToken; infer_instance

/-- Splits `l` at `sep` into exactly three numeric tokens, if possible. -/
def numericTokens (sep : Char) (l : List Char) : Option (List Char × List Char × List Char) :=
  match splitOnChar sep l with
  | [t0, t1, t2] =>
    if goodToken t0 ∧ goodToken t1 ∧ goodToken t2 then some (t0, t1, t2) else none
  | _ => none

/-- Modelled from the spec: `dateutil.parser.parse(s, dayfirst=False)`
restricted to strings of three numeric tokens separated by `-` or `/`
(the family of inputs the claims quantify over); every other input is
treated as a parse failure.  Returns the (year, month, day) triple. -/
def dateutilParseList (cy : ℕ) (l : List Char) : Option (ℕ × ℕ × ℕ) :=
  match numericTokens '-' l with
  | some (t0, t1, t2) => resolveAndValidate cy t0 t1 t2
  | none =>
    match numericTokens '/' l with
    | some (t0, t1, t2) => resolveAndValidate cy t0 t1 t2
    | none => none

/-- Modelled from the spec: the raising form of the dateutil parse.
On failure dateutil raises `ParserError`, a subclass of `ValueError`. -/
def dateutilParseExc (cy : ℕ) (l : List Char) : Except PyExc (ℕ × ℕ × ℕ) :=
  match dateutilParseList cy l with
  | some ymd => Except.ok ymd
  | none => Except.error PyExc.valueError

/-- The ISO rendering `YYYY-MM-DD` produced by
`parsed_date.strftime("%Y-%m-%d")`, as a character list. -/
def isoChars (y m d : ℕ) : List Char :=
  pad4 y ++ '-' :: (pad2 m ++ '-' :: pad2 d)

/-- The ISO rendering `YYYY-MM-DD` as a string. -/
def isoFormat (y m d : ℕ) : String := String.mk (isoChars y m d)

/-- A numeric slash date `AA/BB/YYYY` with two-digit day and month
fields and a four-digit year, as a character list (the family of
inputs the ambiguity-policy claim ranges over). -/
def slashChars (a b y : ℕ) : List Char :=
  pad2 a ++ '/' :: (pad2 b ++ '/' :: pad4 y)

/-- Embedding of `normalize_date` (src/src/normalizer.py, lines 37-82)
with the exception flow explicit: the `try` block catches exactly
`ValueError` and `OverflowError`; any other exception would propagate.
`cy` is `datetime.now().year`. -/
def normalize_date_exc (cy : ℕ) (input : PyInput) : Except PyExc (Option String) :=
  match input with
  | PyInput.nonString => Except.ok none
  | PyInput.str s =>
    let t := pyStripList s.toList
    if t = [] then Except.ok none
    else
      match dateutilParseExc cy t with
      | Except.ok (y, m, d) =>
        Except.ok (if y < 1900 ∨ cy + 1 < y then none else some (isoFormat y m d))
      | Except.error PyExc.valueError => Except.ok none
      | Except.error PyExc.overflowError => Except.ok none
      | Except.error e => Except.error e

/-- The value of `normalize_date` as seen by its callers. -/
def normalize_date (cy : ℕ) (input : PyInput) : Option String :=
  match normalize_date_exc cy input with
  | Except.ok o => o
  | Except.error _ => none

example : normalize_date 2025 (PyInput.str ("2023-01-15")) = some ("2023-01-15") := by decide
example : normalize_date 2025 (PyInput.str ("2023-02-29")) = none := by decide
example : normalize_date 2025 (PyInput.str ("2024-02-29")) = some ("2024-02-29") := by decide
example : normalize_date 2025 (PyInput.str ("2023-13-01")) = none := by decide
example : normalize_date 2025 (PyInput.str ("2023-01-32")) = none := by decide
example : normalize_date 2025 (PyInput.str ("01/15/2023")) = some ("2023-01-15") := by decide
example : normalize_date 2025 (PyInput.str ("15/01/2023")) = some ("2023-01-15") := by decide
example : normalize_date 2025 (PyInput.str ("03/04/2023")) = some ("2023-03-04") := by decide
example : normalize_date 2025 (PyInput.str ("")) = none := by decide
example : normalize_date 2025 PyInput.nonString = none := by decide

/-- The static merchant knowledge base `MERCHANT_CATEGORIES`
(src/src/normalizer.py, lines 20-31), in declaration order. -/
def MERCHANT_CATEGORIES : List (String × List String) :=
  [("uber", ["uber", "uber trip", "uber eats", "uber technologies"]),
   ("amazon", ["amazon", "amzn", "amazon prime", "amazon mktplace"]),
   ("starbucks", ["starbucks", "sbux", "starbucks coffee"]),
   ("target", ["target", "tgt"]),
   ("mcdonalds", ["mcdonald", "mcd"]),
   ("gas_station", ["shell", "chevron", "bp", "exxon", "exxonmobil"]),
   ("grocery", ["whole foods", "trader joe", "safeway", "trader joes"]),
   ("restaurant", ["chipotle", "panera", "in-n-out", "in n out"]),
   ("utility", ["pg&e", "pge", "pacific gas", "comcast", "at&t", "att"]),
   ("entertainment", ["netflix", "spotify", "amc"])]

/-- The fuzzy matching threshold `FUZZY_MATCH_THRESHOLD = 85`,
as a rational since rapidfuzz scores are floats in [0, 100]. -/
def FUZZY_MATCH_THRESHOLD : ℚ := 85

/-- The (category, keyword) pairs of the knowledge base in iteration
order: categories in declaration order, keywords in list order. -/
def kbPairs : List (String × String) :=
  MERCHANT_CATEGORIES.flatMap (fun ck => ck.2.map (fun k => (ck.1, k)))

/-- Python `str.lower()` (ASCII, which covers every keyword). -/
def lowerStr (s : String) : String := String.mk (s.toList.map Char.toLower)

/-- Python `str.title()`: an alphabetic character is uppercased when the
previous character is not alphabetic, lowercased otherwise (ASCII). -/
def pyTitleAux : Bool → List Char → List Char
  | _, [] => []
  | prev, c :: rest =>
    if c.isAlpha then
      (if prev then c.toLower else c.toUpper) :: pyTitleAux true rest
    else c :: pyTitleAux false rest

/-- Python `str.title()` on a string. -/
def pyTitle (s : String) : String := String.mk (pyTitleAux false s.toList)

/-- Collapses every run of whitespace to a single space:
the `re.sub(r'\s+', ' ', ...)` step. -/
def collapseWs : List Char → List Char
  | [] => []
  | [c] => if isPySpace c then [' '] else [c]
  | c :: d :: rest =>
    if isPySpace c then
      (if isPySpace d then collapseWs (d :: rest) else ' ' :: collapseWs (d :: rest))
    else c :: collapseWs (d :: rest)

/-- The comparison key of `normalize_merchant`: characters outside
`[a-zA-Z0-9\s]` removed, lower-cased, whitespace runs collapsed to one
space, then stripped (src/src/normalizer.py, lines 114-115). -/
def comparisonKey (cleaned : List Char) : String :=
  String.mk (pyStripList (collapseWs
    ((cleaned.filter (fun c => c.isAlphanum || isPySpace c)).map Char.toLower)))

/-- One step of the matching loop of `normalize_merchant`
(src/src/normalizer.py, lines 122-130): state is
(best_match_score, best_match_category, best_match_name). -/
def merchantStep (score : String → String → ℚ) (key : String)
    (st : ℚ × Option String × Option String) (p : String × String) :
    ℚ × Option String × Option String :=
  let sc := score key (lowerStr p.2)
  if st.1 < sc ∧ FUZZY_MATCH_THRESHOLD ≤ sc then (sc, some p.1, some (pyTitle p.2))
  else st

/-- The matching loop of `normalize_merchant` over the whole knowledge
base, starting from (0, None, None). -/
def merchantLoop (score : String → String → ℚ) (key : String) :
    ℚ × Option String × Option String :=
  kbPairs.foldl (merchantStep score key) (0, none, none)

/-- The fallback display name of `normalize_merchant`
(src/src/normalizer.py, line 138). -/
def merchantFallbackName (cleaned : List Char) : String :=
  if cleaned.length < 50 then pyTitle (String.mk cleaned)
  else String.mk (cleaned.take 50) ++ "..."

/-- The return step of `normalize_merchant` (src/src/normalizer.py,
lines 132-139): the `if best_match_category and best_match_name`
truthiness test of the source is the `some`/`some` match plus the
emptiness check; otherwise the fallback display name is used. -/
def merchantPick (cleaned : List Char) (st : ℚ × Option String × Option String) :
    String × String :=
  match st.2.1, st.2.2 with
  | some c, some n =>
    if c = "" ∨ n = "" then (merchantFallbackName cleaned, "other") else (n, c)
  | _, _ => (merchantFallbackName cleaned, "other")

/-- Body of `normalize_merchant` for a non-empty trimmed string. -/
def normalize_merchant_str (score : String → String → ℚ) (cleaned : List Char) :
    String × String :=
  merchantPick cleaned (merchantLoop score (comparisonKey cleaned))

/-- Embedding of `normalize_merchant` (src/src/normalizer.py, lines
85-139).  The external `fuzz.partial_ratio` is the `score` parameter.
The final `if best_match_category and best_match_name` truthiness test
of the source is the `some`/`some` match plus the emptiness check. -/
def normalize_merchant (score : String → String → ℚ) (input : PyInput) :
    String × String :=
  match input with
  | PyInput.nonString => ("Unknown", "other")
  | PyInput.str s =>
    let cleaned := pyStripList s.toList
    if cleaned = [] then ("Unknown", "other")
    else normalize_merchant_str score cleaned

/-- Exception view of `normalize_merchant`: the body performs only
regular-expression substitutions, fuzzy scoring and string slicing on a
guaranteed string, none of which raises; the `isinstance` guard keeps
non-strings away from the string operations. -/
def normalize_merchant_exc (score : String → String → ℚ) (input : PyInput) :
    Except PyExc (String × String) :=
  Except.ok (normalize_merchant score input)

/-- The `re.sub(r'[€¥£]', '', ...)` step of `normalize_amount`. -/
def stripSymsEuro (l : List Char) : List Char :=
  l.filter (fun c => ¬(c = '€' ∨ c = '¥' ∨ c = '£'))

/-- The `re.sub(r'\$', '', ...)` step of `normalize_amount`. -/
def stripDollar (l : List Char) : List Char := l.filter (fun c => c ≠ '$')

/-- Tests whether three characters spell one of the currency codes
`USD EUR GBP JPY`, ignoring case. -/
def isCurrencyCode (a b c : Char) : Prop :=
  (a.toUpper, b.toUpper, c.toUpper) ∈
    [('U', 'S', 'D'), ('E', 'U', 'R'), ('G', 'B', 'P'), ('J', 'P', 'Y')]

instance (a b c : Char) : Decidable (isCurrencyCode a b c) := by
  unfold isCurrencyCode; infer_instance

/-- The `re.sub(r'USD|EUR|GBP|JPY', '', ..., flags=re.IGNORECASE)` step:
left-to-right removal of non-overlapping three-letter code substrings
(all alternatives have length three, so leftmost-first scanning is
exactly `re.sub`). -/
def stripCodes : List Char → List Char
  | [] => []
  | a :: b :: c :: rest =>
    if isCurrencyCode a b c then stripCodes rest
    else a :: stripCodes (b :: c :: rest)
  | a :: rest => a :: stripCodes rest

/-- Removes every occurrence of one character:
the `str.replace(x, '')` steps for `-` and `,`. -/
def removeChar (x : Char) (l : List Char) : List Char := l.filter (fun c => c ≠ x)

/-- The character list after the stripping phase of `normalize_amount`
(src/src/normalizer.py, lines 180-186): currency symbols, dollar signs
and currency codes removed from the trimmed input, then trimmed again. -/
def amountSymbolStripped (s : String) : List Char :=
  pyStripList (stripCodes (stripDollar (stripSymsEuro (pyStripList s.toList))))

/-- The `is_negative` flag of `normalize_amount` (lines 178 and
189-190): a leading `-` on the trimmed input, or any `-` left after
symbol stripping. -/
def amountIsNeg (s : String) : Bool :=
  ((pyStripList s.toList).head? = some '-') || ('-' ∈ amountSymbolStripped s)

/-- The first match of `re.search(r'(\d+\.?\d*)', ...)`: at the first
digit, a maximal digit run, optionally a decimal point followed by a
maximal digit run. -/
def takeRun (l : List Char) : List Char :=
  let ds := l.takeWhile Char.isDigit
  match l.dropWhile Char.isDigit with
  | '.' :: r2 => ds ++ '.' :: r2.takeWhile Char.isDigit
  | _ => ds

/-- Finds the leftmost match of `re.search(r'(\d+\.?\d*)', ...)`
(every match starts with a digit, so the leftmost match starts at the
first digit of the string). -/
def findRun : List Char → Option (List Char)
  | [] => none
  | c :: rest => if c.isDigit then some (takeRun (c :: rest)) else findRun rest

/-- The exact decimal value of a matched numeric run, as the pair
(integer part, fractional numerator, fractional length):
`"12.345"` becomes `(12, 345, 3)`.  `Decimal(run)` is exactly
`n + f / 10 ^ k`, so this models the `Decimal` conversion (which never
raises on a string of this shape). -/
def runParts (run : List Char) : ℕ × ℕ × ℕ :=
  let ds := run.takeWhile Char.isDigit
  let fs := (run.dropWhile Char.isDigit).drop 1
  (digitsToNat ds, digitsToNat fs, fs.length)

/-- Round-half-even quantization of `±(n + f / 10 ^ k)` to cents, on
the magnitude: `|value| * 100 = 100 * n + (100 * f) / 10 ^ k` with
remainder `(100 * f) % 10 ^ k`; ties go to the even cent count.
This is `Decimal.quantize(Decimal('0.01'))` under the default
`ROUND_HALF_EVEN` context rounding, which is symmetric in sign. -/
def quantCentsMag (n f k : ℕ) : ℕ :=
  let t := 100 * f
  let den := 10 ^ k
  let base := 100 * n + t / den
  let r := t % den
  if 2 * r < den then base
  else if den < 2 * r then base + 1
  else (if base % 2 = 0 then base else base + 1)

/-- The quantize call with its exception: the default decimal context
has 28 digits of precision, and `quantize` raises `InvalidOperation`
when the quantized coefficient needs more digits than that. -/
def decimalQuantizeExc (neg : Bool) (n f k : ℕ) : Except PyExc ℤ :=
  let mag := quantCentsMag n f k
  if 10 ^ 28 ≤ mag then Except.error PyExc.invalidOperation
  else Except.ok (if neg then -(mag : ℤ) else (mag : ℤ))

/-- The parsing phase of `normalize_amount`: trimming, sign capture,
symbol stripping, `-` and `,` removal, numeric-run extraction.
Returns the sign and the exact decimal parts, or `none` when the input
is empty after trimming or contains no digit. -/
def amountParsed (s : String) : Option (Bool × ℕ × ℕ × ℕ) :=
  let cleaned := pyStripList s.toList
  if cleaned = [] then none
  else
    let c5 := removeChar ',' (removeChar '-' (amountSymbolStripped s))
    match findRun c5 with
    | none => none
    | some run => some (amountIsNeg s, runParts run)

/-- Embedding of `normalize_amount` (src/src/normalizer.py, lines
142-226) with the exception flow explicit.  The result is the amount in
cents.  The `try` block catches `InvalidOperation` and `ValueError`;
anything else would propagate. -/
def normalize_amount_exc (input : PyInput) : Except PyExc (Option ℤ) :=
  match input with
  | PyInput.nonString => Except.ok none
  | PyInput.str s =>
    match amountParsed s with
    | none => Except.ok none
    | some (neg, n, f, k) =>
      match decimalQuantizeExc neg n f k with
      | Except.ok c =>
        Except.ok (if c < -(10 ^ 8 : ℤ) ∨ (10 ^ 8 : ℤ) < c then none else some c)
      | Except.error PyExc.invalidOperation => Except.ok none
      | Except.error PyExc.valueError => Except.ok none
      | Except.error e => Except.error e

/-- The value of `normalize_amount` as seen by its callers
(cents; `some 4550` is `Decimal('45.50')`). -/
def normalize_amount (input : PyInput) : Option ℤ :=
  match normalize_amount_exc input with
  | Except.ok o => o
  | Except.error _ => none

example : normalize_amount (PyInput.str ("$45.50")) = some 4550 := by decide
example : normalize_amount (PyInput.str ("$ 45.50")) = some 4550 := by decide
example : normalize_amount (PyInput.str ("45.50 USD")) = some 4550 := by decide
example : normalize_amount (PyInput.str ("-$25.00")) = some (-2500) := by decide
example : normalize_amount (PyInput.str ("€50.00")) = some 5000 := by decide
example : normalize_amount (PyInput.str ("$1,234.56")) = some 123456 := by decide
example : normalize_amount (PyInput.str ("Invalid")) = none := by decide
example : normalize_amount (PyInput.str ("$999999999.99")) = none := by decide
example : normalize_amount (PyInput.str ("1000000")) = some 100000000 := by decide
example : normalize_amount (PyInput.str ("-1000000.00")) = some (-100000000) := by decide
example : normalize_amount (PyInput.str ("1000000.01")) = none := by decide
example : normalize_amount (PyInput.str (".50")) = some 5000 := by decide
example : normalize_amount (PyInput.str ("12.345")) = some 1234 := by decide
example : normalize_amount (PyInput.str ("12.355")) = some 1236 := by decide
example : normalize_amount (PyInput.str ("")) = none := by decide
example : normalize_amount PyInput.nonString = none := by decide

/-- The display form of a raw input used in error messages
(`f"Invalid date: {date}"`).  For a non-string the placeholder stands
for Python's rendering of the value; no claim depends on the text. -/
def pyDisplay (i : PyInput) : String :=
  match i with
  | PyInput.str s => s
  | PyInput.nonString => "<non-string>"

/-- The normalized record built by `normalize_transaction`
(src/src/normalizer.py, lines 241-251). -/
structure NormalizedRecord where
  raw_date : PyInput
  raw_merchant : PyInput
  raw_amount : PyInput
  normalized_date : Option String
  normalized_merchant : String
  category : String
  normalized_amount : Option ℤ
  is_valid : Bool
  errors : List String
deriving DecidableEq

/-- Embedding of `normalize_transaction` (src/src/normalizer.py, lines
229-272).  `is_valid` starts true and is cleared by a date or amount
failure; errors are appended date-first then amount. -/
def normalize_transaction (cy : ℕ) (score : String → String → ℚ)
    (date merchant amount : PyInput) : NormalizedRecord :=
  let nd := normalize_date cy date
  let mc := normalize_merchant score merchant
  let na := normalize_amount amount
  let valid1 := true
  let valid2 := if nd.isNone then false else valid1
  let valid3 := if na.isNone then false else valid2
  { raw_date := date
    raw_merchant := merchant
    raw_amount := amount
    normalized_date := nd
    normalized_merchant := mc.1
    category := mc.2
    normalized_amount := na
    is_valid := valid3
    errors :=
      (if nd.isNone then ["Invalid date: " ++ pyDisplay date] else []) ++
      (if na.isNone then ["Invalid amount: " ++ pyDisplay amount] else []) }

/-- Python `dict.get(k, d)` over an insertion-ordered association list. -/
def dictGetD : List (String × ℕ) → String → ℕ → ℕ
  | [], _, d => d
  | (k1, v) :: rest, k, d => if k1 = k then v else dictGetD rest k d

/-- Python `dict[k] = v` over an insertion-ordered association list:
replaces the binding in place or appends a new one. -/
def dictSet : List (String × ℕ) → String → ℕ → List (String × ℕ)
  | [], k, v => [(k, v)]
  | (k1, v1) :: rest, k, v =>
    if k1 = k then (k, v) :: rest else (k1, v1) :: dictSet rest k v

/-- The statistics record of `get_normalization_stats`. -/
structure NormalizationStats where
  total_transactions : ℕ
  valid_transactions : ℕ
  invalid_transactions : ℕ
  success_rate : ℚ
  date_errors : ℕ
  amount_errors : ℕ
  categories : List (String × ℕ)

/-- Embedding of `get_normalization_stats` (src/src/normalizer.py,
lines 275-305).  The `t.get("category", "other")` of the source always
finds the `category` field, which `normalize_transaction` sets on every
record. -/
def get_normalization_stats (transactions : List NormalizedRecord) : NormalizationStats :=
  let total := transactions.length
  let valid := transactions.countP (fun t => t.is_valid)
  let invalid := total - valid
  let date_errors := transactions.countP (fun t => t.normalized_date.isNone)
  let amount_errors := transactions.countP (fun t => t.normalized_amount.isNone)
  let categories := transactions.foldl
    (fun m t => dictSet m t.category (dictGetD m t.category 0 + 1)) []
  { total_transactions := total
    valid_transactions := valid
    invalid_transactions := invalid
    success_rate := if 0 < total then (valid : ℚ) / (total : ℚ) * 100 else 0
    date_errors := date_errors
    amount_errors := amount_errors
    categories := categories }

/-- C1: for every input triple, the record returned by
`normalize_transaction` satisfies `is_valid` true iff both
`normalized_date` and `normalized_amount` are present, and `errors`
empty iff `is_valid` is true. -/
theorem c1_record_invariants (cy : ℕ) (score : String → String → ℚ)
    (date merchant amount : PyInput) :
    ((normalize_transaction cy score date merchant amount).is_valid = true ↔
      ((normalize_transaction cy score date merchant amount).normalized_date.isSome = true ∧
        (normalize_transaction cy score date merchant amount).normalized_amount.isSome = true)) ∧
    ((normalize_transaction cy score date merchant amount).errors = [] ↔
      (normalize_transaction cy score date merchant amount).is_valid = true) := by
  unfold normalize_transaction
  cases normalize_date cy date <;> cases normalize_amount amount <;> simp

/-- C10: the extraction regex `(\d+\.?\d*)` requires a digit before the
optional decimal point, so on `".50"` the leftmost match is the bare
digit run `50` and the normalized amount is `Decimal('50.00')`
(5000 cents), not `0.50` (50 cents) and not absent. -/
theorem c10_amount_leading_decimal_point :
    findRun (String.toList (".50")) = some (['5', '0']) ∧
    normalize_amount (PyInput.str (".50")) = some 5000 ∧
    normalize_amount (PyInput.str (".50")) ≠ some 50 := by decide

/-- Helper: `dropWhile` keeps an element its predicate rejects. -/
theorem mem_dropWhile_of_mem {p : Char → Bool} {x : Char} (hx : p x = false) :
    ∀ {l : List Char}, x ∈ l → x ∈ l.dropWhile p := by
  intro l hl
  induction l with
  | nil => cases hl
  | cons c r ih =>
    by_cases hc : p c = true
    · rw [List.dropWhile_cons_of_pos hc]
      rcases List.mem_cons.mp hl with rfl | hr
      · rw [hx] at hc; cases hc
      · exact ih hr
    · rw [List.dropWhile_cons_of_neg hc]
      exact hl

/-- Helper: a non-whitespace element of `l` survives `pyStripList`. -/
theorem mem_pyStripList_of_mem {x : Char} (hx : isPySpace x = false)
    {l : List Char} (h : x ∈ l) : x ∈ pyStripList l := by
  unfold pyStripList
  rw [List.mem_reverse]
  exact mem_dropWhile_of_mem hx (by rw [List.mem_reverse]; exact mem_dropWhile_of_mem hx h)

/-- Helper: `pyStripList` only removes elements. -/
theorem mem_of_mem_pyStripList {x : Char} {l : List Char} (h : x ∈ pyStripList l) : x ∈ l := by
  unfold pyStripList at h
  rw [List.mem_reverse] at h
  have h1 := (List.dropWhile_sublist _).subset h
  rw [List.mem_reverse] at h1
  exact (List.dropWhile_sublist _).subset h1

/-- Helper: the characters of a currency code are letters, not `-`. -/
theorem isCurrencyCode_ne_dash {a b c : Char} (h : isCurrencyCode a b c) :
    a ≠ '-' ∧ b ≠ '-' ∧ c ≠ '-' := by
  unfold isCurrencyCode at h
  simp only [List.mem_cons, List.mem_singleton, Prod.mk.injEq, List.not_mem_nil, or_false] at h
  refine ⟨fun ha => ?_, fun hb => ?_, fun hc => ?_⟩
  · subst ha; rcases h with ⟨h1, _⟩ | ⟨h1, _⟩ | ⟨h1, _⟩ | ⟨h1, _⟩ <;> exact absurd h1 (by decide)
  · subst hb; rcases h with ⟨_, h1, _⟩ | ⟨_, h1, _⟩ | ⟨_, h1, _⟩ | ⟨_, h1, _⟩ <;> exact absurd h1 (by decide)
  · subst hc; rcases h with ⟨_, _, h1⟩ | ⟨_, _, h1⟩ | ⟨_, _, h1⟩ | ⟨_, _, h1⟩ <;> exact absurd h1 (by decide)

/-- Helper: currency-code removal neither adds nor removes `-`. -/
theorem dash_mem_stripCodes : ∀ l : List Char, '-' ∈ stripCodes l ↔ '-' ∈ l := by
  intro l
  induction l using stripCodes.induct with
  | case1 => simp [stripCodes]
  | case2 a b c rest h ih =>
    rw [stripCodes, if_pos h, ih]
    obtain ⟨ha, hb, hc⟩ := isCurrencyCode_ne_dash h
    simp [Ne.symm ha, Ne.symm hb, Ne.symm hc]
  | case3 a b c rest h ih =>
    rw [stripCodes, if_neg h]
    simp [ih]
  | case4 a rest h ih =>
    cases rest with
    | nil => simp [stripCodes]
    | cons x r2 =>
      cases r2 with
      | nil => simp [stripCodes]
      | cons y r3 => exact absurd rfl (h x y r3)

/-- Helper: membership of `-` after the full symbol-stripping phase is
the same as membership in the trimmed input. -/
theorem dash_mem_amountSymbolStripped (s : String) :
    '-' ∈ amountSymbolStripped s ↔ '-' ∈ pyStripList s.toList := by
  constructor
  · intro h
    unfold amountSymbolStripped at h
    have h1 := mem_of_mem_pyStripList h
    rw [dash_mem_stripCodes] at h1
    unfold stripDollar at h1
    unfold stripSymsEuro at h1
    exact List.mem_of_mem_filter (List.mem_of_mem_filter h1)
  · intro h
    unfold amountSymbolStripped stripDollar stripSymsEuro
    apply mem_pyStripList_of_mem (by decide)
    rw [dash_mem_stripCodes]
    exact List.mem_filter.mpr ⟨List.mem_filter.mpr ⟨h, by decide⟩, by decide⟩

/-- C6: `normalize_amount` strips currency symbols, currency codes,
commas and `-` characters; the sign flag is set exactly when the
trimmed input contains a `-` (equivalently: a leading `-` on the
trimmed input, or a `-` anywhere after symbol stripping, which the
stripping steps neither create nor destroy); and the three examples
of the specification evaluate as stated (amounts in cents). -/
theorem c6_amount_sign_and_examples :
    (∀ s : String, amountIsNeg s = true ↔ '-' ∈ pyStripList s.toList) ∧
    normalize_amount (PyInput.str ("$1,234.56")) = some 123456 ∧
    normalize_amount (PyInput.str ("-$25.00")) = some (-2500) ∧
    normalize_amount (PyInput.str ("€50.00")) = some 5000 := by
  refine ⟨fun s => ?_, by decide, by decide, by decide⟩
  unfold amountIsNeg
  simp only [Bool.or_eq_true, decide_eq_true_eq]
  constructor
  · rintro (h | h)
    · cases hl : pyStripList s.toList with
      | nil => rw [hl] at h; cases h
      | cons c r =>
        rw [hl] at h
        injection h with hc
        subst hc
        exact List.mem_cons_self _ _
    · exact (dash_mem_amountSymbolStripped s).mp h
  · intro h
    exact Or.inr ((dash_mem_amountSymbolStripped s).mpr h)

/-- Helper: the matching loop only ever stores a category and a
title-cased keyword coming from the knowledge base (or nothing). -/
theorem merchantFold_state (score : String → String → ℚ) (key : String) :
    ∀ (l : List (String × String)) (st : ℚ × Option String × Option String),
      (∀ q ∈ l, q ∈ kbPairs) →
      ((st.2.1 = none ∧ st.2.2 = none) ∨
        ∃ q ∈ kbPairs, st.2.1 = some q.1 ∧ st.2.2 = some (pyTitle q.2)) →
      ((l.foldl (merchantStep score key) st).2.1 = none ∧
          (l.foldl (merchantStep score key) st).2.2 = none) ∨
        ∃ q ∈ kbPairs, (l.foldl (merchantStep score key) st).2.1 = some q.1 ∧
          (l.foldl (merchantStep score key) st).2.2 = some (pyTitle q.2) := by
  intro l
  induction l with
  | nil => intro st _ hst; exact hst
  | cons p rest ih =>
    intro st hmem hst
    rw [List.foldl_cons]
    apply ih _ (fun q hq => hmem q (List.mem_cons_of_mem p hq))
    unfold merchantStep
    by_cases hc : st.1 < score key (lowerStr p.2) ∧
        FUZZY_MATCH_THRESHOLD ≤ score key (lowerStr p.2)
    · rw [if_pos hc]
      exact Or.inr ⟨p, hmem p (List.mem_cons_self p rest), rfl, rfl⟩
    · rw [if_neg hc]
      exact hst

/-- Helper: when the loop state stores a knowledge-base pair, the
return step yields that pair (or the fallback when a stored string is
empty, which never happens for the concrete knowledge base). -/
theorem merchantPick_shape (cleaned : List Char)
    (st : ℚ × Option String × Option String)
    (hst : (st.2.1 = none ∧ st.2.2 = none) ∨
      ∃ q ∈ kbPairs, st.2.1 = some q.1 ∧ st.2.2 = some (pyTitle q.2)) :
    (merchantPick cleaned st).2 = "other" ∨
      ∃ q ∈ kbPairs, merchantPick cleaned st = (pyTitle q.2, q.1) := by
  obtain ⟨sc, bc, bn⟩ := st
  rcases hst with ⟨h1, h2⟩ | ⟨q, hq, h1, h2⟩
  · dsimp only at h1 h2
    subst h1; subst h2
    exact Or.inl rfl
  · dsimp only at h1 h2
    subst h1; subst h2
    dsimp only [merchantPick]
    by_cases he : q.1 = "" ∨ pyTitle q.2 = ""
    · rw [if_pos he]; exact Or.inl rfl
    · rw [if_neg he]; exact Or.inr ⟨q, hq, rfl⟩

/-- Helper: the quantize step either succeeds or raises
`InvalidOperation`, never anything else. -/
theorem quantize_ok_or_invalid (neg : Bool) (n f k : ℕ) :
    (∃ c, decimalQuantizeExc neg n f k = Except.ok c) ∨
      decimalQuantizeExc neg n f k = Except.error PyExc.invalidOperation := by
  unfold decimalQuantizeExc
  by_cases h : 10 ^ 28 ≤ quantCentsMag n f k
  · rw [if_pos h]; exact Or.inr rfl
  · rw [if_neg h]; exact Or.inl ⟨_, rfl⟩

/-- C8: no exception escapes any of the three normalizers, on any
input (empty, whitespace-only and non-string inputs included): the
exception-explicit embeddings always return `Except.ok`, failures being
the in-band absent value; and `normalize_merchant` never fails, its
result being either an "other"-categorized fallback (`"Unknown"` or the
trimmed display name) or a knowledge-base match. -/
theorem c8_normalizers_never_raise (cy : ℕ) (score : String → String → ℚ)
    (input : PyInput) :
    (∃ o, normalize_date_exc cy input = Except.ok o) ∧
    (∃ o, normalize_amount_exc input = Except.ok o) ∧
    (∃ p, normalize_merchant_exc score input = Except.ok p) ∧
    ((normalize_merchant score input).2 = "other" ∨
      ∃ q ∈ kbPairs, normalize_merchant score input = (pyTitle q.2, q.1)) := by
  refine ⟨?_, ?_, ⟨normalize_merchant score input, rfl⟩, ?_⟩
  · cases input with
    | nonString => exact ⟨none, rfl⟩
    | str s =>
      simp only [normalize_date_exc]
      by_cases h : pyStripList s.toList = []
      · rw [if_pos h]; exact ⟨none, rfl⟩
      · rw [if_neg h]
        unfold dateutilParseExc
        cases dateutilParseList cy (pyStripList s.toList) with
        | none => exact ⟨none, rfl⟩
        | some ymd => exact ⟨_, rfl⟩
  · cases input with
    | nonString => exact ⟨none, rfl⟩
    | str s =>
      cases hp : amountParsed s with
      | none => exact ⟨none, by simp [normalize_amount_exc, hp]⟩
      | some t =>
        obtain ⟨neg, n, f, k⟩ := t
        rcases quantize_ok_or_invalid neg n f k with ⟨c, hc⟩ | hc
        · refine ⟨if c < -(10 ^ 8 : ℤ) ∨ (10 ^ 8 : ℤ) < c then none else some c, ?_⟩
          simp only [normalize_amount_exc, hp, hc]
        · exact ⟨none, by simp [normalize_amount_exc, hp, hc]⟩
  · cases input with
    | nonString => exact Or.inl rfl
    | str s =>
      simp only [normalize_merchant]
      by_cases h : pyStripList s.toList = []
      · rw [if_pos h]; exact Or.inl rfl
      · rw [if_neg h]
        unfold normalize_merchant_str merchantLoop
        exact merchantPick_shape (pyStripList s.toList) _
          (merchantFold_state score (comparisonKey (pyStripList s.toList)) kbPairs
            (0, none, none) (fun q hq => hq) (Or.inl ⟨rfl, rfl⟩))

/-- Helper: the caller-visible amount result when the quantize step
succeeds. -/
theorem normalize_amount_of_quantize_ok (s : String) (neg : Bool) (n f k : ℕ)
    (h : amountParsed s = some (neg, n, f, k)) (c : ℤ)
    (hr : decimalQuantizeExc neg n f k = Except.ok c) :
    normalize_amount (PyInput.str s) =
      (if c < -(10 ^ 8 : ℤ) ∨ (10 ^ 8 : ℤ) < c then none else some c) := by
  unfold normalize_amount
  simp only [normalize_amount_exc, h, hr]

/-- Helper: the caller-visible amount result when the quantize step
raises. -/
theorem normalize_amount_of_quantize_err (s : String) (neg : Bool) (n f k : ℕ)
    (h : amountParsed s = some (neg, n, f, k)) (e : PyExc)
    (hr : decimalQuantizeExc neg n f k = Except.error e) :
    normalize_amount (PyInput.str s) = none := by
  unfold normalize_amount
  simp only [normalize_amount_exc, h, hr]
  cases e <;> rfl

/-- C2: among inputs whose numeric extraction succeeds,
`normalize_amount` rejects exactly when the quantized cent value lies
strictly below -1,000,000.00 or strictly above 1,000,000.00; the exact
boundary values ±1,000,000.00 are accepted and returned; and
`"$999999999.99"` yields absent. -/
theorem c2_amount_range_boundary (s : String) (neg : Bool) (n f k : ℕ)
    (h : amountParsed s = some (neg, n, f, k)) :
    ((normalize_amount (PyInput.str s) = none ↔
        ((if neg then -(quantCentsMag n f k : ℤ) else (quantCentsMag n f k : ℤ)) < -(10 ^ 8 : ℤ) ∨
          (10 ^ 8 : ℤ) < (if neg then -(quantCentsMag n f k : ℤ) else (quantCentsMag n f k : ℤ)))) ∧
      ((if neg then -(quantCentsMag n f k : ℤ) else (quantCentsMag n f k : ℤ)) = (10 ^ 8 : ℤ) →
        normalize_amount (PyInput.str s) = some (10 ^ 8 : ℤ)) ∧
      ((if neg then -(quantCentsMag n f k : ℤ) else (quantCentsMag n f k : ℤ)) = -(10 ^ 8 : ℤ) →
        normalize_amount (PyInput.str s) = some (-(10 ^ 8 : ℤ)))) ∧
    normalize_amount (PyInput.str ("$999999999.99")) = none := by
  refine ⟨?_, by decide⟩
  rcases quantize_ok_or_invalid neg n f k with ⟨c, hc⟩ | hc
  · have hres := normalize_amount_of_quantize_ok s neg n f k h _ hc
    have hcC : c = (if neg then -(quantCentsMag n f k : ℤ) else (quantCentsMag n f k : ℤ)) := by
      unfold decimalQuantizeExc at hc
      by_cases hprec : 10 ^ 28 ≤ quantCentsMag n f k
      · rw [if_pos hprec] at hc; cases hc
      · rw [if_neg hprec] at hc; injection hc with hh; exact hh.symm
    rw [← hcC, hres]
    refine ⟨?_, fun hb => ?_, fun hb => ?_⟩
    · by_cases hr : c < -(10 ^ 8 : ℤ) ∨ (10 ^ 8 : ℤ) < c
      · rw [if_pos hr]; exact iff_of_true rfl hr
      · rw [if_neg hr]; exact iff_of_false (by simp) hr
    · have hnr : ¬(c < -(10 ^ 8 : ℤ) ∨ (10 ^ 8 : ℤ) < c) := by rw [hb]; norm_num
      rw [if_neg hnr, hb]
    · have hnr : ¬(c < -(10 ^ 8 : ℤ) ∨ (10 ^ 8 : ℤ) < c) := by rw [hb]; norm_num
      rw [if_neg hnr, hb]
  · have hres := normalize_amount_of_quantize_err s neg n f k h _ hc
    have hmag : 10 ^ 28 ≤ quantCentsMag n f k := by
      unfold decimalQuantizeExc at hc
      by_cases hprec : 10 ^ 28 ≤ quantCentsMag n f k
      · exact hprec
      · rw [if_neg hprec] at hc; cases hc
    have hbig : (10 ^ 8 : ℤ) < (quantCentsMag n f k : ℤ) := by
      have h1 : ((10 : ℤ) ^ 28) ≤ ((quantCentsMag n f k : ℕ) : ℤ) := by exact_mod_cast hmag
      have h2 : (10 : ℤ) ^ 8 < (10 : ℤ) ^ 28 := by norm_num
      linarith
    have hout : (if neg then -(quantCentsMag n f k : ℤ) else (quantCentsMag n f k : ℤ)) < -(10 ^ 8 : ℤ) ∨
        (10 ^ 8 : ℤ) < (if neg then -(quantCentsMag n f k : ℤ) else (quantCentsMag n f k : ℤ)) := by
      cases neg with
      | true => rw [if_pos rfl]; left; linarith
      | false => rw [if_neg (by decide : ¬(false = true))]; right; linarith
    refine ⟨?_, fun hb => ?_, fun hb => ?_⟩
    · rw [hres]; exact iff_of_true rfl hout
    · exfalso
      rcases hout with h1 | h1 <;> rw [hb] at h1 <;> norm_num at h1
    · exfalso
      rcases hout with h1 | h1 <;> rw [hb] at h1 <;> norm_num at h1

/-- Witness for C2: the exact boundary amounts ±1,000,000.00 are
accepted and returned. -/
theorem c2_amount_range_boundary_witness :
    normalize_amount (PyInput.str ("1000000")) = some (10 ^ 8 : ℤ) ∧
    normalize_amount (PyInput.str ("-1000000.00")) = some (-(10 ^ 8 : ℤ)) := by
  constructor
  · exact (c2_amount_range_boundary "1000000" false 1000000 0 0 (by decide)).1.2.1 (by decide)
  · exact (c2_amount_range_boundary "-1000000.00" true 1000000 0 2 (by decide)).1.2.2 (by decide)

/-- Helper: when no pair scores at or above the threshold, the matching
loop never updates its state. -/
theorem merchantFold_no_qualify (score : String → String → ℚ) (key : String) :
    ∀ (l : List (String × String)) (st : ℚ × Option String × Option String),
      (∀ q ∈ l, score key (lowerStr q.2) < FUZZY_MATCH_THRESHOLD) →
      l.foldl (merchantStep score key) st = st := by
  intro l
  induction l with
  | nil => intro st _; rfl
  | cons p rest ih =>
    intro st hl
    rw [List.foldl_cons]
    have hp := hl p (List.mem_cons_self p rest)
    have hno : ¬(st.1 < score key (lowerStr p.2) ∧
        FUZZY_MATCH_THRESHOLD ≤ score key (lowerStr p.2)) :=
      fun hcon => absurd hcon.2 (not_le.mpr hp)
    rw [show merchantStep score key st p = st from by unfold merchantStep; rw [if_neg hno]]
    exact ih st (fun q hq => hl q (List.mem_cons_of_mem p hq))

/-- Helper: when every remaining score is at most the stored best
score, the matching loop keeps its state. -/
theorem merchantFold_stable (score : String → String → ℚ) (key : String) :
    ∀ (l : List (String × String)) (st : ℚ × Option String × Option String),
      (∀ q ∈ l, score key (lowerStr q.2) ≤ st.1) →
      l.foldl (merchantStep score key) st = st := by
  intro l
  induction l with
  | nil => intro st _; rfl
  | cons p rest ih =>
    intro st hl
    rw [List.foldl_cons]
    have hp := hl p (List.mem_cons_self p rest)
    have hno : ¬(st.1 < score key (lowerStr p.2) ∧
        FUZZY_MATCH_THRESHOLD ≤ score key (lowerStr p.2)) :=
      fun hcon => absurd hcon.1 (not_lt.mpr hp)
    rw [show merchantStep score key st p = st from by unfold merchantStep; rw [if_neg hno]]
    exact ih st (fun q hq => hl q (List.mem_cons_of_mem p hq))

/-- Helper: the stored best score stays strictly below any bound that
dominates the start state and every processed score. -/
theorem merchantFold_bound (score : String → String → ℚ) (key : String) (B : ℚ) :
    ∀ (l : List (String × String)) (st : ℚ × Option String × Option String),
      st.1 < B → (∀ q ∈ l, score key (lowerStr q.2) < B) →
      (l.foldl (merchantStep score key) st).1 < B := by
  intro l
  induction l with
  | nil => intro st hst _; exact hst
  | cons p rest ih =>
    intro st hst hl
    rw [List.foldl_cons]
    by_cases hc : st.1 < score key (lowerStr p.2) ∧
        FUZZY_MATCH_THRESHOLD ≤ score key (lowerStr p.2)
    · rw [show merchantStep score key st p
          = (score key (lowerStr p.2), some p.1, some (pyTitle p.2)) from by
        unfold merchantStep; rw [if_pos hc]]
      exact ih _ (hl p (List.mem_cons_self p rest)) (fun q hq => hl q (List.mem_cons_of_mem p hq))
    · rw [show merchantStep score key st p = st from by unfold merchantStep; rw [if_neg hc]]
      exact ih st hst (fun q hq => hl q (List.mem_cons_of_mem p hq))

/-- Helper: every category key and every title-cased keyword of the
concrete knowledge base is a non-empty string (so the truthiness test
of the source never rejects a stored match). -/
theorem kbPairs_entries_nonempty : ∀ q ∈ kbPairs, q.1 ≠ "" ∧ pyTitle q.2 ≠ "" := by decide

/-- C7: on a non-empty merchant string with no qualifying fuzzy match,
`normalize_merchant` returns category `"other"` and, as display name,
the trimmed input title-cased when shorter than 50 characters,
otherwise its first 50 characters followed by `"..."`, for a display
length of exactly 53. -/
theorem c7_merchant_no_match_fallback (score : String → String → ℚ) (s : String)
    (hne : pyStripList s.toList ≠ [])
    (hnm : ∀ q ∈ kbPairs,
      score (comparisonKey (pyStripList s.toList)) (lowerStr q.2) < FUZZY_MATCH_THRESHOLD) :
    normalize_merchant score (PyInput.str s) =
      ((if (pyStripList s.toList).length < 50 then pyTitle (String.mk (pyStripList s.toList))
        else String.mk ((pyStripList s.toList).take 50) ++ "..."), "other") ∧
    (50 ≤ (pyStripList s.toList).length →
      (normalize_merchant score (PyInput.str s)).1.length = 53) := by
  have hmain : normalize_merchant score (PyInput.str s) =
      ((if (pyStripList s.toList).length < 50 then pyTitle (String.mk (pyStripList s.toList))
        else String.mk ((pyStripList s.toList).take 50) ++ "..."), "other") := by
    simp only [normalize_merchant]
    rw [if_neg hne]
    unfold normalize_merchant_str merchantLoop
    rw [merchantFold_no_qualify score (comparisonKey (pyStripList s.toList)) kbPairs
      (0, none, none) hnm]
    rfl
  refine ⟨hmain, fun h50 => ?_⟩
  rw [hmain]
  have hnlt : ¬((pyStripList s.toList).length < 50) := not_lt.mpr h50
  rw [if_neg hnlt]
  rw [String.length_append]
  show (String.mk ((pyStripList s.toList).take 50)).length + 3 = 53
  have : (String.mk ((pyStripList s.toList).take 50)).length
      = ((pyStripList s.toList).take 50).length := rfl
  rw [this, List.length_take]
  omega

/-- Witness for C7: a 60-character unmatched merchant yields
category `"other"` and a 53-character display name ending in dots. -/
theorem c7_merchant_no_match_fallback_witness :
    normalize_merchant (fun _ _ => (0 : ℚ))
      (PyInput.str ("ZZZZZZZZZZZZZZZZZZZZZZZZZZZZZZZZZZZZZZZZZZZZZZZZZZZZZZZZZZZZ")) =
      (String.mk (List.replicate 50 'Z') ++ "...", "other") ∧
    (normalize_merchant (fun _ _ => (0 : ℚ))
      (PyInput.str ("ZZZZZZZZZZZZZZZZZZZZZZZZZZZZZZZZZZZZZZZZZZZZZZZZZZZZZZZZZZZZ"))).1.length = 53 := by
  have h := c7_merchant_no_match_fallback (fun _ _ => (0 : ℚ))
    "ZZZZZZZZZZZZZZZZZZZZZZZZZZZZZZZZZZZZZZZZZZZZZZZZZZZZZZZZZZZZ"
    (by decide)
    (by intro q hq
        show (0 : ℚ) < FUZZY_MATCH_THRESHOLD
        decide)
  exact ⟨h.1.trans (by decide), h.2 (by decide)⟩

/-- C3: the matching loop of `normalize_merchant` scores every
(category, keyword) pair in declaration order against the comparison
key; a pair qualifies only at score ≥ 85; a strictly greater score
replaces the stored best, so on ties the earliest pair wins; and when a
qualifying pair exists the result is the winning keyword title-cased
together with its category.  The winning pair `p` is characterized by
its position: every earlier pair scores strictly lower, every later
pair scores no higher. -/
theorem c3_merchant_best_match (score : String → String → ℚ) (s : String)
    (l1 l2 : List (String × String)) (p : String × String)
    (hne : pyStripList s.toList ≠ [])
    (hsplit : kbPairs = l1 ++ p :: l2)
    (hq : FUZZY_MATCH_THRESHOLD ≤ score (comparisonKey (pyStripList s.toList)) (lowerStr p.2))
    (hbefore : ∀ q ∈ l1, score (comparisonKey (pyStripList s.toList)) (lowerStr q.2)
      < score (comparisonKey (pyStripList s.toList)) (lowerStr p.2))
    (hafter : ∀ q ∈ l2, score (comparisonKey (pyStripList s.toList)) (lowerStr q.2)
      ≤ score (comparisonKey (pyStripList s.toList)) (lowerStr p.2)) :
    normalize_merchant score (PyInput.str s) = (pyTitle p.2, p.1) := by
  have hkb : p ∈ kbPairs := by
    rw [hsplit]; exact List.mem_append_right _ (List.mem_cons_self _ _)
  have hpne := kbPairs_entries_nonempty p hkb
  simp only [normalize_merchant]
  rw [if_neg hne]
  unfold normalize_merchant_str merchantLoop
  rw [hsplit, List.foldl_append, List.foldl_cons]
  have h0 : ((0 : ℚ), (none : Option String), (none : Option String)).1
      < score (comparisonKey (pyStripList s.toList)) (lowerStr p.2) :=
    lt_of_lt_of_le (by norm_num [FUZZY_MATCH_THRESHOLD]) hq
  have h1 := merchantFold_bound score (comparisonKey (pyStripList s.toList))
    (score (comparisonKey (pyStripList s.toList)) (lowerStr p.2)) l1
    (0, none, none) h0 hbefore
  rw [show merchantStep score (comparisonKey (pyStripList s.toList))
      (l1.foldl (merchantStep score (comparisonKey (pyStripList s.toList))) (0, none, none)) p
      = (score (comparisonKey (pyStripList s.toList)) (lowerStr p.2),
          some p.1, some (pyTitle p.2)) from by
    unfold merchantStep; rw [if_pos ⟨h1, hq⟩]]
  rw [merchantFold_stable score (comparisonKey (pyStripList s.toList)) l2 _ hafter]
  dsimp only [merchantPick]
  rw [if_neg (not_or.mpr ⟨hpne.1, hpne.2⟩)]

/-- Witness for C3: with a scorer that gives 90 to the keyword `sbux`
and 0 to everything else, the match is `("Sbux", "starbucks")`. -/
theorem c3_merchant_best_match_witness :
    normalize_merchant (fun _ kw => if kw = ("sbux") then (90 : ℚ) else 0)
      (PyInput.str ("x")) = ("Sbux", "starbucks") := by
  have h := c3_merchant_best_match (fun _ kw => if kw = ("sbux") then (90 : ℚ) else 0) "x"
    (kbPairs.take 9) (kbPairs.drop 10) ("starbucks", "sbux")
    (by decide) (by decide) (by decide) (by decide) (by decide)
  exact h.trans (by decide)

/-- Helper: reading a key after a dict write sees the written value on
that key and the old value elsewhere. -/
theorem dictGetD_dictSet (m : List (String × ℕ)) (k : String) (v : ℕ) (c : String) :
    dictGetD (dictSet m k v) c 0 = if k = c then v else dictGetD m c 0 := by
  induction m with
  | nil =>
    by_cases h : k = c
    · rw [if_pos h]; unfold dictSet dictGetD; rw [if_pos h]
    · rw [if_neg h]; unfold dictSet dictGetD; rw [if_neg h]; rfl
  | cons kv rest ih =>
    obtain ⟨k1, v1⟩ := kv
    unfold dictSet
    by_cases h1 : k1 = k
    · rw [if_pos h1]
      unfold dictGetD
      by_cases h : k = c
      · rw [if_pos h, if_pos h]
      · rw [if_neg h, if_neg h]
        subst h1
        unfold dictGetD
        rw [if_neg h]
    · rw [if_neg h1]
      unfold dictGetD
      by_cases h2 : k1 = c
      · rw [if_pos h2, if_pos h2]
        subst h2
        rw [if_neg (fun he => h1 he.symm)]
      · rw [if_neg h2, if_neg h2]
        exact ih

/-- Helper: after folding the category-counting loop, each key holds
its previous count plus the number of matching records. -/
theorem categories_fold (ts : List NormalizedRecord) :
    ∀ (m : List (String × ℕ)) (c : String),
      dictGetD (ts.foldl (fun m t => dictSet m t.category (dictGetD m t.category 0 + 1)) m) c 0
        = dictGetD m c 0 + ts.countP (fun t => t.category == c) := by
  induction ts with
  | nil =>
    intro m c
    rw [List.foldl_nil, List.countP_nil]
    omega
  | cons t rest ih =>
    intro m c
    rw [List.foldl_cons, ih, dictGetD_dictSet]
    rw [List.countP_cons]
    by_cases h : t.category = c
    · rw [if_pos h]
      simp [h]
      omega
    · rw [if_neg h]
      simp [h]

/-- C9: `get_normalization_stats` returns the record count, the count
and proportion of valid records (0 when the batch is empty), the counts
of absent dates and amounts, and a category map in which every record,
valid or not, contributes exactly one count to its category. -/
theorem c9_stats_fields (ts : List NormalizedRecord) :
    (get_normalization_stats ts).total_transactions = ts.length ∧
    (get_normalization_stats ts).valid_transactions
      = (ts.filter (fun t => t.is_valid)).length ∧
    (get_normalization_stats ts).invalid_transactions
      = ts.length - (ts.filter (fun t => t.is_valid)).length ∧
    (get_normalization_stats ts).success_rate
      = (if 0 < ts.length
          then ((ts.filter (fun t => t.is_valid)).length : ℚ) / (ts.length : ℚ) * 100
          else 0) ∧
    (get_normalization_stats ts).date_errors
      = (ts.filter (fun t => t.normalized_date.isNone)).length ∧
    (get_normalization_stats ts).amount_errors
      = (ts.filter (fun t => t.normalized_amount.isNone)).length ∧
    ∀ c : String, dictGetD (get_normalization_stats ts).categories c 0
      = (ts.filter (fun t => t.category == c)).length := by
  unfold get_normalization_stats
  refine ⟨rfl, ?_, ?_, ?_, ?_, ?_, ?_⟩
  · exact List.countP_eq_length_filter _ _
  · rw [List.countP_eq_length_filter]
  · rw [List.countP_eq_length_filter]
  · exact List.countP_eq_length_filter _ _
  · exact List.countP_eq_length_filter _ _
  · intro c
    rw [categories_fold ts [] c, List.countP_eq_length_filter]
    rw [show dictGetD [] c 0 = 0 from rfl]
    omega

/-- Helper: reading back the digit character of a digit value. -/
theorem charToDigit_digitChar (d : ℕ) (h : d < 10) : charToDigit (digitChar d) = d := by
  interval_cases d <;> decide

/-- Helper: the digit character of a digit value is a decimal digit. -/
theorem digitChar_isDigit (d : ℕ) (h : d < 10) : (digitChar d).isDigit = true := by
  interval_cases d <;> decide

/-- Helper: a decimal digit is not a dash. -/
theorem isDigit_ne_dash {c : Char} (h : c.isDigit = true) : c ≠ '-' := by
  intro he; subst he; exact absurd h (by decide)

/-- Helper: a decimal digit is not a slash. -/
theorem isDigit_ne_slash {c : Char} (h : c.isDigit = true) : c ≠ '/' := by
  intro he; subst he; exact absurd h (by decide)

/-- Helper: a decimal digit is not whitespace. -/
theorem isDigit_not_space {c : Char} (h : c.isDigit = true) : isPySpace c = false := by
  cases hps : isPySpace c
  · rfl
  · exfalso
    simp only [isPySpace, decide_eq_true_eq] at hps
    rcases hps with h1 | h1 | h1 | h1 | h1 | h1 <;> subst h1 <;> exact absurd h (by decide)

/-- Helper: with enough fuel, `renderNatAux` computes the base-10
digits of `Nat.digits`, as characters. -/
theorem renderNatAux_eq_digits (fuel : ℕ) :
    ∀ n : ℕ, n ≤ fuel → renderNatAux fuel n = (Nat.digits 10 n).map digitChar := by
  induction fuel with
  | zero =>
    intro n hn
    have h0 : n = 0 := by omega
    subst h0
    simp [renderNatAux]
  | succ fuel ih =>
    intro n hn
    cases n with
    | zero => simp [renderNatAux]
    | succ n =>
      rw [renderNatAux]
      rw [Nat.digits_def' (by norm_num : 1 < 10) (Nat.succ_pos n)]
      rw [List.map_cons]
      congr 1
      apply ih
      have hlt : (n + 1) / 10 < n + 1 := Nat.div_lt_self (Nat.succ_pos n) (by norm_num)
      omega

/-- Helper: `renderNat` prints the digits of `Nat.digits`, most
significant first. -/
theorem renderNat_eq (n : ℕ) : renderNat n = ((Nat.digits 10 n).map digitChar).reverse := by
  unfold renderNat
  rw [renderNatAux_eq_digits n n le_rfl]

/-- Helper: folding the digit reader over a printed digit list
recovers the number (with the accumulator scaled). -/
theorem foldl_digits_aux (L : List ℕ) (hL : ∀ d ∈ L, d < 10) :
    ∀ a : ℕ, ((L.map digitChar).reverse).foldl (fun x c => 10 * x + charToDigit c) a
      = a * 10 ^ L.length + Nat.ofDigits 10 L := by
  induction L with
  | nil => intro a; simp [Nat.ofDigits_nil]
  | cons d L ih =>
    intro a
    rw [List.map_cons, List.reverse_cons, List.foldl_append]
    rw [ih (fun x hx => hL x (List.mem_cons_of_mem d hx)) a]
    rw [List.foldl_cons, List.foldl_nil]
    rw [charToDigit_digitChar d (hL d (List.mem_cons_self d L))]
    rw [Nat.ofDigits_cons, List.length_cons]
    ring

/-- Helper: reading back a rendered number. -/
theorem digitsToNat_renderNat (n : ℕ) : digitsToNat (renderNat n) = n := by
  unfold digitsToNat
  rw [renderNat_eq]
  rw [foldl_digits_aux (Nat.digits 10 n) (fun d hd => Nat.digits_lt_base (by norm_num) hd) 0]
  rw [Nat.ofDigits_digits]
  ring

/-- Helper: leading zero characters do not change the digit reader. -/
theorem foldl_replicate_zeros :
    ∀ k : ℕ, (List.replicate k '0').foldl (fun x c => 10 * x + charToDigit c) 0 = 0 := by
  intro k
  induction k with
  | zero => rfl
  | succ k ih =>
    rw [List.replicate_succ, List.foldl_cons]
    have h0 : (10 * 0 + charToDigit '0') = 0 := by decide
    rw [h0]
    exact ih

/-- Helper: reading back a zero-padded rendered number. -/
theorem digitsToNat_padLeft (w n : ℕ) : digitsToNat (padLeft w (renderNat n)) = n := by
  unfold digitsToNat padLeft
  rw [List.foldl_append, foldl_replicate_zeros]
  exact digitsToNat_renderNat n

/-- Helper: reading back `pad2`. -/
theorem digitsToNat_pad2 (n : ℕ) : digitsToNat (pad2 n) = n := digitsToNat_padLeft 2 n

/-- Helper: reading back `pad4`. -/
theorem digitsToNat_pad4 (n : ℕ) : digitsToNat (pad4 n) = n := digitsToNat_padLeft 4 n

/-- Helper: a number below `10 ^ w` has at most `w` digits. -/
theorem digits_length_le (n w : ℕ) (h : n < 10 ^ w) : (Nat.digits 10 n).length ≤ w := by
  by_contra hc
  push_neg at hc
  rcases Nat.eq_zero_or_pos n with rfl | hn
  · rw [Nat.digits_zero] at hc
    simp at hc
  · have h1 : 10 ^ (Nat.digits 10 n).length ≤ 10 * n :=
      Nat.base_pow_length_digits_le 10 n (by norm_num) (Nat.pos_iff_ne_zero.mp hn)
    have h2 : 10 ^ (w + 1) ≤ 10 ^ (Nat.digits 10 n).length :=
      Nat.pow_le_pow_right (by norm_num) (by omega)
    rw [pow_succ] at h2
    have h3 : 10 ^ w * 10 ≤ 10 * n := le_trans h2 h1
    rw [mul_comm] at h3
    have h4 : 10 ^ w ≤ n := Nat.le_of_mul_le_mul_left h3 (by norm_num)
    omega

/-- Helper: the rendered length equals the digit count. -/
theorem length_renderNat (n : ℕ) : (renderNat n).length = (Nat.digits 10 n).length := by
  rw [renderNat_eq]
  simp

/-- Helper: padding to a width at least the content length is exact. -/
theorem length_padLeft_of_le {l : List Char} {w : ℕ} (h : l.length ≤ w) :
    (padLeft w l).length = w := by
  unfold padLeft
  rw [List.length_append, List.length_replicate]
  omega

/-- Helper: `pad2` of a number below 100 has length two. -/
theorem length_pad2 (n : ℕ) (h : n < 100) : (pad2 n).length = 2 := by
  unfold pad2
  apply length_padLeft_of_le
  rw [length_renderNat]
  apply digits_length_le
  have h2 : (10 : ℕ) ^ 2 = 100 := by norm_num
  omega

/-- Helper: `pad4` of a number below 10000 has length four. -/
theorem length_pad4 (n : ℕ) (h : n < 10000) : (pad4 n).length = 4 := by
  unfold pad4
  apply length_padLeft_of_le
  rw [length_renderNat]
  apply digits_length_le
  have h4 : (10 : ℕ) ^ 4 = 10000 := by norm_num
  omega

/-- Helper: every character of a padded rendering is a decimal digit. -/
theorem mem_pad_isDigit {w n : ℕ} {c : Char} (hc : c ∈ padLeft w (renderNat n)) :
    c.isDigit = true := by
  unfold padLeft at hc
  rcases List.mem_append.mp hc with h1 | h1
  · rw [List.eq_of_mem_replicate h1]; decide
  · rw [renderNat_eq] at h1
    rw [List.mem_reverse] at h1
    rcases List.mem_map.mp h1 with ⟨d, hd, rfl⟩
    exact digitChar_isDigit d (Nat.digits_lt_base (by norm_num) hd)

/-- Helper: no whitespace inside a padded rendering. -/
theorem pad_no_space {w n : ℕ} : ∀ c ∈ padLeft w (renderNat n), isPySpace c = false :=
  fun _ hc => isDigit_not_space (mem_pad_isDigit hc)

/-- Helper: no dash inside a padded rendering. -/
theorem dash_not_mem_pad {w n : ℕ} : '-' ∉ padLeft w (renderNat n) :=
  fun hc => isDigit_ne_dash (mem_pad_isDigit hc) rfl

/-- Helper: no slash inside a padded rendering. -/
theorem slash_not_mem_pad {w n : ℕ} : '/' ∉ padLeft w (renderNat n) :=
  fun hc => isDigit_ne_slash (mem_pad_isDigit hc) rfl

/-- Helper: a padded rendering of positive width is non-empty. -/
theorem pad_ne_nil {w n : ℕ} (hw : 0 < w) : padLeft w (renderNat n) ≠ [] := by
  intro he
  have hlen : (padLeft w (renderNat n)).length = 0 := by rw [he]; rfl
  unfold padLeft at hlen
  rw [List.length_append, List.length_replicate] at hlen
  omega

/-- Helper: unfolding one step of `splitOnChar`. -/
theorem splitOnChar_cons (sep c : Char) (l : List Char) :
    splitOnChar sep (c :: l) =
      (if c = sep then [] :: splitOnChar sep l
       else
        match splitOnChar sep l with
        | [] => [[c]]
        | a :: as => (c :: a) :: as) := rfl

/-- Helper: a separator-free list splits into itself. -/
theorem splitOnChar_not_mem {sep : Char} :
    ∀ {l : List Char}, sep ∉ l → splitOnChar sep l = [l] := by
  intro l
  induction l with
  | nil => intro _; rfl
  | cons c r ih =>
    intro h
    rw [splitOnChar_cons]
    rw [if_neg (fun he => h (List.mem_cons.mpr (Or.inl he.symm)))]
    rw [ih (fun hr => h (List.mem_cons_of_mem c hr))]

/-- Helper: splitting peels off a separator-free prefix. -/
theorem splitOnChar_append {sep : Char} :
    ∀ {A : List Char}, sep ∉ A → ∀ B : List Char,
      splitOnChar sep (A ++ sep :: B) = A :: splitOnChar sep B := by
  intro A
  induction A with
  | nil =>
    intro _ B
    rw [List.nil_append, splitOnChar_cons, if_pos rfl]
  | cons c A ih =>
    intro h B
    rw [List.cons_append, splitOnChar_cons]
    rw [if_neg (fun he => h (List.mem_cons.mpr (Or.inl he.symm)))]
    rw [ih (fun hr => h (List.mem_cons_of_mem c hr)) B]

/-- Helper: `dropWhile` is the identity when the predicate rejects
every element. -/
theorem dropWhile_eq_self_of {p : Char → Bool} :
    ∀ {l : List Char}, (∀ c ∈ l, p c = false) → l.dropWhile p = l := by
  intro l h
  cases l with
  | nil => rfl
  | cons c r =>
    exact List.dropWhile_cons_of_neg (by simp [h c (List.mem_cons_self c r)])

/-- Helper: stripping a string with no whitespace is the identity. -/
theorem pyStripList_eq_self {l : List Char} (h : ∀ c ∈ l, isPySpace c = false) :
    pyStripList l = l := by
  unfold pyStripList
  rw [dropWhile_eq_self_of h]
  rw [dropWhile_eq_self_of (fun c hc => h c (List.mem_reverse.mp hc))]
  exact List.reverse_reverse l

/-- Helper: the ISO rendering contains no whitespace. -/
theorem isoChars_no_space (y m d : ℕ) : ∀ c ∈ isoChars y m d, isPySpace c = false := by
  intro c hc
  unfold isoChars at hc
  rcases List.mem_append.mp hc with h1 | h1
  · exact pad_no_space c h1
  · rcases List.mem_cons.mp h1 with rfl | h2
    · decide
    · rcases List.mem_append.mp h2 with h3 | h3
      · exact pad_no_space c h3
      · rcases List.mem_cons.mp h3 with rfl | h4
        · decide
        · exact pad_no_space c h4

/-- Helper: the ISO rendering is non-empty. -/
theorem isoChars_ne_nil (y m d : ℕ) : isoChars y m d ≠ [] := by
  unfold isoChars
  intro he
  exact pad_ne_nil (by norm_num) (List.append_eq_nil.mp he).1

/-- Helper: splitting the ISO rendering on dashes yields its tokens. -/
theorem splitOnChar_isoChars (y m d : ℕ) :
    splitOnChar '-' (isoChars y m d) = [pad4 y, pad2 m, pad2 d] := by
  unfold isoChars
  rw [splitOnChar_append (show ('-' : Char) ∉ pad4 y from dash_not_mem_pad)
    (pad2 m ++ '-' :: pad2 d)]
  rw [splitOnChar_append (show ('-' : Char) ∉ pad2 m from dash_not_mem_pad) (pad2 d)]
  rw [splitOnChar_not_mem (show ('-' : Char) ∉ pad2 d from dash_not_mem_pad)]

/-- Helper: the ISO rendering tokenizes into its three numeric parts. -/
theorem numericTokens_isoChars (y m d : ℕ) :
    numericTokens '-' (isoChars y m d) = some (pad4 y, pad2 m, pad2 d) := by
  unfold numericTokens
  rw [splitOnChar_isoChars]
  exact if_pos ⟨⟨pad_ne_nil (by norm_num), fun c hc => mem_pad_isDigit hc⟩,
    ⟨pad_ne_nil (by norm_num), fun c hc => mem_pad_isDigit hc⟩,
    ⟨pad_ne_nil (by norm_num), fun c hc => mem_pad_isDigit hc⟩⟩

/-- Helper: resolving the zero-padded ISO tokens reads them as
(year, month, day) and just validates the calendar date. -/
theorem resolveAndValidate_iso (cy y m d : ℕ) (hy : y < 10000) (hm : m < 100) (hd : d < 100) :
    resolveAndValidate cy (pad4 y) (pad2 m) (pad2 d)
      = if validYMD y m d then some (y, m, d) else none := by
  simp only [resolveAndValidate]
  rw [length_pad4 y hy, length_pad2 m hm, length_pad2 d hd]
  norm_num
  rw [show convertYear cy true (digitsToNat (pad4 y)) = digitsToNat (pad4 y) from by
    unfold convertYear
    rw [if_neg (fun hcon => absurd hcon.2 (by decide))]]
  rw [digitsToNat_pad4, digitsToNat_pad2, digitsToNat_pad2]

/-- Helper: the caller-visible date result when the parse succeeds. -/
theorem normalize_date_of_parse_some (cy : ℕ) (s : String)
    (hne : pyStripList s.toList ≠ []) (y m d : ℕ)
    (h : dateutilParseList cy (pyStripList s.toList) = some (y, m, d)) :
    normalize_date cy (PyInput.str s)
      = (if y < 1900 ∨ cy + 1 < y then none else some (isoFormat y m d)) := by
  unfold normalize_date
  simp only [normalize_date_exc, dateutilParseExc, h]
  rw [if_neg hne]

/-- Helper: the caller-visible date result when the parse fails. -/
theorem normalize_date_of_parse_none (cy : ℕ) (s : String)
    (hne : pyStripList s.toList ≠ [])
    (h : dateutilParseList cy (pyStripList s.toList) = none) :
    normalize_date cy (PyInput.str s) = none := by
  unfold normalize_date
  simp only [normalize_date_exc, dateutilParseExc, h]
  rw [if_neg hne]

/-- Helper: the full dateutil model on a zero-padded ISO rendering. -/
theorem dateutilParseList_iso (cy y m d : ℕ) (hy : y < 10000) (hm : m < 100) (hd : d < 100) :
    dateutilParseList cy (isoChars y m d)
      = (if validYMD y m d then some (y, m, d) else none) := by
  unfold dateutilParseList
  rw [numericTokens_isoChars y m d]
  exact resolveAndValidate_iso cy y m d hy hm hd

/-- C4: on every string of the zero-padded ISO form `YYYY-MM-DD`,
`normalize_date` is the identity (wrapped in `some`) exactly when the
date is calendar-valid (leap years respected) and its year lies in
[1900, current_year + 1]; otherwise the result is absent. -/
theorem c4_date_iso_identity (cy y m d : ℕ) (hy : y < 10000) (hm : m < 100) (hd : d < 100) :
    normalize_date cy (PyInput.str (isoFormat y m d))
      = (if validYMD y m d ∧ 1900 ≤ y ∧ y ≤ cy + 1
          then some (isoFormat y m d) else none) := by
  have hlist : (isoFormat y m d).toList = isoChars y m d := rfl
  have hstrip : pyStripList (isoFormat y m d).toList = isoChars y m d := by
    rw [hlist]; exact pyStripList_eq_self (isoChars_no_space y m d)
  have hne : pyStripList (isoFormat y m d).toList ≠ [] := by
    rw [hstrip]; exact isoChars_ne_nil y m d
  by_cases hv : validYMD y m d
  · have hp : dateutilParseList cy (pyStripList (isoFormat y m d).toList) = some (y, m, d) := by
      rw [hstrip, dateutilParseList_iso cy y m d hy hm hd, if_pos hv]
    rw [normalize_date_of_parse_some cy _ hne y m d hp]
    by_cases hr : y < 1900 ∨ cy + 1 < y
    · rw [if_pos hr, if_neg (fun hcon => by omega)]
    · rw [if_neg hr, if_pos ⟨hv, by omega, by omega⟩]
  · have hp : dateutilParseList cy (pyStripList (isoFormat y m d).toList) = none := by
      rw [hstrip, dateutilParseList_iso cy y m d hy hm hd, if_neg hv]
    rw [normalize_date_of_parse_none cy _ hne hp]
    rw [if_neg (fun hcon => hv hcon.1)]

/-- Witness for C4: the leap day 2024-02-29 is within range and
calendar-valid, so it is returned unchanged. -/
theorem c4_date_iso_identity_witness :
    normalize_date 2025 (PyInput.str (isoFormat 2024 2 29)) = some (isoFormat 2024 2 29) := by
  rw [c4_date_iso_identity 2025 2024 2 29 (by norm_num) (by norm_num) (by norm_num)]
  decide

/-- Helper: the slash rendering contains no whitespace. -/
theorem slashChars_no_space (a b y : ℕ) : ∀ c ∈ slashChars a b y, isPySpace c = false := by
  intro c hc
  unfold slashChars at hc
  rcases List.mem_append.mp hc with h1 | h1
  · exact pad_no_space c h1
  · rcases List.mem_cons.mp h1 with rfl | h2
    · decide
    · rcases List.mem_append.mp h2 with h3 | h3
      · exact pad_no_space c h3
      · rcases List.mem_cons.mp h3 with rfl | h4
        · decide
        · exact pad_no_space c h4

/-- Helper: the slash rendering is non-empty. -/
theorem slashChars_ne_nil (a b y : ℕ) : slashChars a b y ≠ [] := by
  unfold slashChars
  intro he
  exact pad_ne_nil (by norm_num) (List.append_eq_nil.mp he).1

/-- Helper: the slash rendering contains no dash. -/
theorem dash_not_mem_slashChars (a b y : ℕ) : '-' ∉ slashChars a b y := by
  intro hc
  unfold slashChars at hc
  rcases List.mem_append.mp hc with h1 | h1
  · exact dash_not_mem_pad h1
  · rcases List.mem_cons.mp h1 with he | h2
    · cases he
    · rcases List.mem_append.mp h2 with h3 | h3
      · exact dash_not_mem_pad h3
      · rcases List.mem_cons.mp h3 with he | h4
        · cases he
        · exact dash_not_mem_pad h4

/-- Helper: the dash tokenizer fails on a slash rendering. -/
theorem numericTokens_dash_slashChars (a b y : ℕ) :
    numericTokens '-' (slashChars a b y) = none := by
  unfold numericTokens
  rw [splitOnChar_not_mem (dash_not_mem_slashChars a b y)]

/-- Helper: splitting the slash rendering on slashes yields its tokens. -/
theorem splitOnChar_slashChars (a b y : ℕ) :
    splitOnChar '/' (slashChars a b y) = [pad2 a, pad2 b, pad4 y] := by
  unfold slashChars
  rw [splitOnChar_append (show ('/' : Char) ∉ pad2 a from slash_not_mem_pad)
    (pad2 b ++ '/' :: pad4 y)]
  rw [splitOnChar_append (show ('/' : Char) ∉ pad2 b from slash_not_mem_pad) (pad4 y)]
  rw [splitOnChar_not_mem (show ('/' : Char) ∉ pad4 y from slash_not_mem_pad)]

/-- Helper: the slash rendering tokenizes into its three numeric
parts. -/
theorem numericTokens_slash_slashChars (a b y : ℕ) :
    numericTokens '/' (slashChars a b y) = some (pad2 a, pad2 b, pad4 y) := by
  unfold numericTokens
  rw [splitOnChar_slashChars]
  exact if_pos ⟨⟨pad_ne_nil (by norm_num), fun c hc => mem_pad_isDigit hc⟩,
    ⟨pad_ne_nil (by norm_num), fun c hc => mem_pad_isDigit hc⟩,
    ⟨pad_ne_nil (by norm_num), fun c hc => mem_pad_isDigit hc⟩⟩

/-- Helper: resolving slash tokens with a first value of at most 31:
month-first, falling back to day-first exactly when the first value
exceeds 12. -/
theorem resolveAndValidate_slash (cy a b y : ℕ) (ha : a < 100) (hb : b < 100)
    (hy : y < 10000) (h31 : a ≤ 31) :
    resolveAndValidate cy (pad2 a) (pad2 b) (pad4 y)
      = (if 12 < a
          then (if validYMD y b a then some (y, b, a) else none)
          else (if validYMD y a b then some (y, a, b) else none)) := by
  simp only [resolveAndValidate]
  rw [length_pad2 a ha, length_pad2 b hb, length_pad4 y hy]
  rw [digitsToNat_pad2 a, digitsToNat_pad2 b, digitsToNat_pad4 y]
  norm_num
  rw [if_neg (by omega : ¬(31 < a))]
  by_cases h12 : 12 < a
  · rw [if_pos h12]
    rw [show convertYear cy true y = y from by
      unfold convertYear
      rw [if_neg (fun hcon => absurd hcon.2 (by decide))]]
    rw [if_pos h12]
  · rw [if_neg h12]
    rw [show convertYear cy true y = y from by
      unfold convertYear
      rw [if_neg (fun hcon => absurd hcon.2 (by decide))]]
    rw [if_neg h12]

/-- Helper: the full dateutil model on a slash rendering. -/
theorem dateutilParseList_slash (cy a b y : ℕ) (ha : a < 100) (hb : b < 100)
    (hy : y < 10000) (h31 : a ≤ 31) :
    dateutilParseList cy (slashChars a b y)
      = (if 12 < a
          then (if validYMD y b a then some (y, b, a) else none)
          else (if validYMD y a b then some (y, a, b) else none)) := by
  unfold dateutilParseList
  rw [numericTokens_dash_slashChars a b y]
  rw [numericTokens_slash_slashChars a b y]
  exact resolveAndValidate_slash cy a b y ha hb hy h31

/-- C5: on numeric slash dates `AA/BB/YYYY`, `normalize_date` reads the
first token as the month whenever it can be one (ambiguous dates are
interpreted month-first even when day-first would also be valid), and
falls back to day-first exactly when the first token exceeds 12. -/
theorem c5_date_month_first_policy (cy a b y : ℕ) (ha : a < 100) (hb : b < 100)
    (hy : y < 10000) (h31 : a ≤ 31) :
    normalize_date cy (PyInput.str (String.mk (slashChars a b y)))
      = (if 12 < a
          then (if validYMD y b a ∧ 1900 ≤ y ∧ y ≤ cy + 1
                then some (isoFormat y b a) else none)
          else (if validYMD y a b ∧ 1900 ≤ y ∧ y ≤ cy + 1
                then some (isoFormat y a b) else none)) := by
  have hstrip : pyStripList (String.mk (slashChars a b y)).toList = slashChars a b y :=
    pyStripList_eq_self (slashChars_no_space a b y)
  have hne : pyStripList (String.mk (slashChars a b y)).toList ≠ [] := by
    rw [hstrip]; exact slashChars_ne_nil a b y
  have hpl := dateutilParseList_slash cy a b y ha hb hy h31
  by_cases h12 : 12 < a
  · rw [if_pos h12] at hpl ⊢
    by_cases hv : validYMD y b a
    · rw [if_pos hv] at hpl
      rw [normalize_date_of_parse_some cy _ hne y b a (by rw [hstrip]; exact hpl)]
      by_cases hr : y < 1900 ∨ cy + 1 < y
      · rw [if_pos hr, if_neg (fun hcon => by omega)]
      · rw [if_neg hr, if_pos ⟨hv, by omega, by omega⟩]
    · rw [if_neg hv] at hpl
      rw [normalize_date_of_parse_none cy _ hne (by rw [hstrip]; exact hpl)]
      rw [if_neg (fun hcon => hv hcon.1)]
  · rw [if_neg h12] at hpl ⊢
    by_cases hv : validYMD y a b
    · rw [if_pos hv] at hpl
      rw [normalize_date_of_parse_some cy _ hne y a b (by rw [hstrip]; exact hpl)]
      by_cases hr : y < 1900 ∨ cy + 1 < y
      · rw [if_pos hr, if_neg (fun hcon => by omega)]
      · rw [if_neg hr, if_pos ⟨hv, by omega, by omega⟩]
    · rw [if_neg hv] at hpl
      rw [normalize_date_of_parse_none cy _ hne (by rw [hstrip]; exact hpl)]
      rw [if_neg (fun hcon => hv hcon.1)]

/-- Witness for C5: `15/01/2023` is read day-first (month-first is
impossible) and the ambiguous `01/15/2023` is read month-first; both
normalize to `2023-01-15`. -/
theorem c5_date_month_first_policy_witness :
    normalize_date 2025 (PyInput.str (String.mk (slashChars 15 1 2023)))
      = some (isoFormat 2023 1 15) ∧
    normalize_date 2025 (PyInput.str (String.mk (slashChars 1 15 2023)))
      = some (isoFormat 2023 1 15) := by
  constructor
  · rw [c5_date_month_first_policy 2025 15 1 2023 (by norm_num) (by norm_num)
      (by norm_num) (by norm_num)]
    decide
  · rw [c5_date_month_first_policy 2025 1 15 2023 (by norm_num) (by norm_num)
      (by norm_num) (by norm_num)]
    decide
